import Mathlib

/-!
Verification of `nni/retiarii/converter/utils.py`: a shallow embedding of the
trace-to-IR node matching helpers (name canonicalisation, layer-choice
detection, scope resolution, node matching, trace metadata extraction),
together with theorems checking the documented behaviour.
-/

namespace NNI

/-- Models Python `str.split(sep)` for a one-character separator, acting on the
character list of the string.  `[]` splits to `[[]]`, matching Python's
`''.split(sep) == ['']`. -/
def splitChars (sep : Char) : List Char → List (List Char)
  | [] => [[]]
  | c :: cs =>
    let r := splitChars sep cs
    if c == sep then [] :: r
    else
      match r with
      | [] => [[c]]
      | g :: gs => (c :: g) :: gs

/-- Models Python `str.split(sep)` for a one-character separator. -/
def pySplit (sep : Char) (s : String) : List String :=
  (splitChars sep s.data).map (fun l => String.mk l)

/-- The `name` argument of `build_full_name` is either a single identifier or a
list of identifiers (the Python function accepts `str` or `list`). -/
inductive NameArg where
  | str (s : String)
  | list (l : List String)
deriving DecidableEq

/-- `build_full_name(prefix, name, seq=None)` from `utils.py`: joins a list
name with `'__'`, then returns `'{}__{}'.format(prefix, name)` or
`'{}__{}{}'.format(prefix, name, str(seq))`. -/
def build_full_name (pfx : String) (name : NameArg) (seq : Option Int := none) : String :=
  let n :=
    match name with
    | NameArg.str s => s
    | NameArg.list l => String.intercalate "__" l
  match seq with
  | none => pfx ++ "__" ++ n
  | some q => pfx ++ "__" ++ n ++ toString q

/-- `build_cand_name(name, label)` from `utils.py`:
`f'layerchoice_{label}_{name}'`. -/
def build_cand_name (name label : String) : String :=
  "layerchoice_" ++ label ++ "_" ++ name

/-- `_convert_name(name)` from `utils.py`: replace every `'.'` with `'__'`. -/
def _convert_name (name : String) : String :=
  String.intercalate "__" (pySplit '.' name)

/-- Modelled from the spec: the operation of a declarative-model node is a
tagged variant — either the `Cell` variant (layer-choice / compound op) or a
generic op.  `Cell` corresponds to `isinstance(node.operation, Cell)`. -/
inductive OpVariant where
  | cell
  | generic
deriving DecidableEq

/-- Modelled from the spec: shape attributes of a node
(`operation.attributes['input_shape']` / `['output_shape']`), populated by an
upstream shape-inference pass, defaulting to empty. -/
structure ShapeAttrs where
  input_shape : List (List Int)
  output_shape : List (List Int)
deriving DecidableEq

/-- Modelled from the spec: a node's operation, carrying the variant tag, the
operation kind (`operation.type`, used by kind-indexed lookup), a `parameters`
mapping (keys such as `'mutation'` and `'label'`) and the shape attributes. -/
structure Operation where
  variant : OpVariant
  type : String
  parameters : List (String × String)
  attributes : ShapeAttrs
deriving DecidableEq

/-- Modelled from the spec: one operation instance of the declarative model,
with a name unique within its graph. -/
structure Node where
  name : String
  operation : Operation
deriving DecidableEq

/-- Modelled from the spec: an ordered collection of nodes belonging to one
named sub-module instantiation. -/
structure Graph where
  nodes : List Node
deriving DecidableEq

/-- Modelled from the spec: the declarative model — named sub-graphs (keyed by
a name unique within the model) with name-indexed node lookup. -/
structure Model where
  graphs : List (String × Graph)
deriving DecidableEq

/-- Modelled from the spec: `Model.graphs.get(name)` — look up the sub-graph
registered under `name`, absent if none. -/
def Model.graphsGet (m : Model) (name : String) : Option Graph :=
  m.graphs.lookup name

/-- Modelled from the spec: name-indexed node lookup on the model — the first
node named `name` across the model's graphs, absent if none. -/
def Model.get_node_by_name (m : Model) (name : String) : Option Node :=
  ((m.graphs.map Prod.snd).foldr (fun g acc => g.nodes ++ acc) []).find?
    (fun n => n.name == name)

/-- Modelled from the spec: kind-indexed lookup on a graph — the nodes whose
operation kind equals `ty`, in the graph's node order. -/
def Graph.get_nodes_by_type (g : Graph) (ty : String) : List Node :=
  g.nodes.filter (fun n => n.operation.type == ty)

/-- `is_layerchoice_node(ir_node)` from `utils.py`: the node is present, its
operation is the `Cell` variant, and `parameters.get('mutation')` is
`'layerchoice'`. -/
def is_layerchoice_node (ir_node : Option Node) : Bool :=
  match ir_node with
  | some nd =>
    nd.operation.variant == OpVariant.cell &&
      nd.operation.parameters.lookup "mutation" == some "layerchoice"
  | none => false

/-- `ir_node.operation.parameters["label"]` as used by the scope resolver.  A
missing key raises `KeyError` in the source; modelled as the empty-string
default, unreachable when the key is present. -/
def getLabel (ir_node : Option Node) : String :=
  match ir_node with
  | some nd => (nd.operation.parameters.lookup "label").getD ""
  | none => ""

/-- One iteration of the loop of `get_full_name_by_scope_name` from
`utils.py`: look the accumulated `full_name` up in the model; a layer-choice
node rewrites the name to `f'layerchoice_{label}_{segment}'`, anything else
extends it with `build_full_name`. -/
def scope_step (m : Model) (full_name seg : String) : String :=
  let ir_node := m.get_node_by_name full_name
  if is_layerchoice_node ir_node then
    "layerchoice_" ++ getLabel ir_node ++ "_" ++ seg
  else
    build_full_name full_name (NameArg.str seg)

/-- `get_full_name_by_scope_name(ir_model, scope_names, prefix)` from
`utils.py`: fold `scope_step` over the scope-name segments starting from the
prefix. -/
def get_full_name_by_scope_name (m : Model) (scope_names : List String)
    (pfx : String := "") : String :=
  scope_names.foldl (scope_step m) pfx

/-- The trace record as read by `match_node`: `torch_node.scopeName()` and
`torch_node.kind()`. -/
structure TorchNode where
  scopeName : String
  kind : String
deriving DecidableEq

/-- The scope-name derivation of `match_node` from `utils.py`:
`torch_node.scopeName().split('/')[-1].split('.')[1:]`. -/
def scope_names_of (scopeName : String) : List String :=
  (pySplit '.' ((pySplit '/' scopeName).getLastD "")).drop 1

/-- `match_node(ir_model, torch_node, prefix)` from `utils.py`: resolve the
scope names to a full name; if a sub-graph is registered under it, return the
first same-kind node with an empty `input_shape` attribute (absent if none);
otherwise return the model's node with exactly that name. -/
def match_node (m : Model) (torch_node : TorchNode) (pfx : String := "") :
    Option Node :=
  let scope_names := scope_names_of torch_node.scopeName
  let full_name := get_full_name_by_scope_name m scope_names pfx
  match m.graphsGet full_name with
  | some graph =>
    (graph.get_nodes_by_type torch_node.kind).find?
      (fun node => node.operation.attributes.input_shape.isEmpty)
  | none => m.get_node_by_name full_name

/-- `_without_shape_info(node)` from `utils.py`: both shape attributes are
empty. -/
def _without_shape_info (node : Node) : Bool :=
  node.operation.attributes.input_shape.isEmpty &&
    node.operation.attributes.output_shape.isEmpty

/-- A value type of the trace (`torch._C.Value.type()`): its `kind()` string
and its `sizes()` (an empty list models both a zero-rank result and a failed
shape inference, the Python-falsy cases). -/
structure VType where
  kind : String
  sizes : List Int
deriving DecidableEq

/-- A trace value handle as read by `_extract_info_from_trace_node`: its type,
the types of the inputs of its producing node (`value.node().inputs()`, of
which only the types are read), and its constant value (`value.toIValue()`). -/
structure TraceValue where
  ty : VType
  producerInputTypes : List VType
  ivalue : Int
deriving DecidableEq

/-- One execution-trace operation record as read by
`_extract_info_from_trace_node`: `kind()`, `inputs()` and `outputs()`. -/
structure TraceNode where
  kind : String
  inputs : List TraceValue
  outputs : List TraceValue
deriving DecidableEq

/-- The shape-collecting loop of `_extract_info_from_trace_node` from
`utils.py`: for each value, if its type kind is `'TensorType'` and its sizes
are non-empty (Python-truthy), append the sizes. -/
def shapeLoop (vs : List TraceValue) : List (List Int) :=
  vs.foldl
    (fun acc v =>
      if v.ty.kind == "TensorType" then
        if v.ty.sizes.isEmpty then acc else acc ++ [v.ty.sizes]
      else acc)
    []

/-- `_extract_info_from_trace_node(trace_node)` from `utils.py`.  For
`'aten::cat'` the input shapes are the sizes of every input of the first
input's producing node and the extra parameter is `{'dim': inputs[1].toIValue()}`
(modelled as `some dim`); otherwise the direct inputs are filtered by the
tensor-type-and-non-empty-shape test and the extra parameter is `None`.
Output shapes always come from the same filtered loop over the outputs.
Accessing `inputs[0]` / `inputs[1]` on a too-short cat input list raises in
the source, modelled as `none`. -/
def _extract_info_from_trace_node (trace_node : TraceNode) :
    Option (ShapeAttrs × Option Int) :=
  if trace_node.kind == "aten::cat" then
    match trace_node.inputs with
    | i0 :: i1 :: _ =>
      let input_shape := i0.producerInputTypes.map (fun t => t.sizes)
      some (⟨input_shape, shapeLoop trace_node.outputs⟩, some i1.ivalue)
    | _ => none
  else
    some (⟨shapeLoop trace_node.inputs, shapeLoop trace_node.outputs⟩, none)

/-- The spec's comparison point for the refinement claim about scope
resolution: iteratively applying plain `build_full_name` over the segments. -/
def iter_build_full_name (scope_names : List String) (pfx : String) : String :=
  scope_names.foldl (fun fn seg => build_full_name fn (NameArg.str seg)) pfx

/-- No intermediate full name looked up during resolution names a layer-choice
node: at every step of the (then purely `build_full_name`-built) trajectory,
the node looked up under the accumulated name is not a layer-choice node. -/
def no_layerchoice_on_path (m : Model) : List String → String → Bool
  | [], _ => true
  | s :: rest, pfx =>
    !(is_layerchoice_node (m.get_node_by_name pfx)) &&
      no_layerchoice_on_path m rest (build_full_name pfx (NameArg.str s))

/-- The spec's description of the shape filter: keep a value's sizes exactly
when its type is a tensor type and the sizes are non-empty. -/
def tensorShapesSpec (vs : List TraceValue) : List (List Int) :=
  vs.filterMap (fun v =>
    if v.ty.kind = "TensorType" ∧ v.ty.sizes ≠ [] then some v.ty.sizes else none)

/-! Concrete fixtures used by witnesses and counterexamples. -/

/-- A model with no graphs at all. -/
def emptyModel : Model := ⟨[]⟩

/-- A generic convolution node named `"__y"`. -/
def cNode : Node := ⟨"__y", ⟨OpVariant.generic, "Conv2d", [], ⟨[], []⟩⟩⟩

/-- A model whose only graph is registered under `"g"` and holds `cNode`. -/
def cModel : Model := ⟨[("g", ⟨[cNode]⟩)]⟩

/-- A trace record whose scope resolves to the name `"__y"` (with empty
prefix) and whose kind differs from `cNode`'s kind. -/
def cTN : TorchNode := ⟨"Net/x.y", "aten::relu"⟩

/-- A trace record whose scope path has no `/` and no `.` delimiter. -/
def mTN : TorchNode := ⟨"Netfoo", "aten::relu"⟩

/-- An unshaped relu node (empty `input_shape`). -/
def n1 : Node := ⟨"net__relu1", ⟨OpVariant.generic, "aten::relu", [], ⟨[], []⟩⟩⟩

/-- A shaped relu node (`input_shape = [[1,3,8,8]]`). -/
def n2 : Node := ⟨"net__relu2", ⟨OpVariant.generic, "aten::relu", [], ⟨[[1, 3, 8, 8]], []⟩⟩⟩

/-- A model with the sub-graph `"net"` holding the shaped node before the
unshaped one. -/
def netModel : Model := ⟨[("net", ⟨[n2, n1]⟩)]⟩

/-- A relu trace record whose scope-name sequence is empty, so the full name
is the prefix. -/
def reluTN : TorchNode := ⟨"Net", "aten::relu"⟩

/-- A layer-choice node named `"p__a"` with label `"lab"`. -/
def lcNode : Node :=
  ⟨"p__a",
    ⟨OpVariant.cell, "LayerChoice", [("mutation", "layerchoice"), ("label", "lab")], ⟨[], []⟩⟩⟩

/-- A model holding `lcNode`. -/
def lcModel : Model := ⟨[("g", ⟨[lcNode]⟩)]⟩

/-- First cat input: its producing node has inputs of sizes `[1,3]` and
`[1,4]`. -/
def catV0 : TraceValue :=
  ⟨⟨"TensorType", []⟩, [⟨"TensorType", [1, 3]⟩, ⟨"TensorType", [1, 4]⟩], 0⟩

/-- Second cat input: the axis constant, `toIValue() = 1`. -/
def catV1 : TraceValue := ⟨⟨"IntType", []⟩, [], 1⟩

/-- A concatenation trace record matching the spec's scenario. -/
def catTN : TraceNode :=
  ⟨"aten::cat", [catV0, catV1], [⟨⟨"TensorType", [1, 7]⟩, [], 0⟩]⟩

/-- A non-cat trace record with a shaped tensor input, a non-tensor input
carrying sizes, and an empty-sized tensor input. -/
def ncTN : TraceNode :=
  ⟨"aten::relu",
    [⟨⟨"TensorType", [2, 3]⟩, [], 0⟩, ⟨⟨"IntType", [9]⟩, [], 0⟩, ⟨⟨"TensorType", []⟩, [], 0⟩],
    [⟨⟨"TensorType", [2, 3]⟩, [], 0⟩]⟩

/-! Helper lemmas shared by the claim theorems. -/

/-- `find?` over a `filter` is `find?` of the conjunction. -/
theorem find_in_filter {α : Type} (p q : α → Bool) (l : List α) :
    (l.filter q).find? p = l.find? (fun a => q a && p a) := by
  induction l with
  | nil => rfl
  | cons a l ih =>
    by_cases hq : q a
    · by_cases hp : p a <;> simp [List.filter_cons, List.find?, hq, hp, ih]
    · simp [List.filter_cons, List.find?, hq, ih]

/-- The shape-collecting loop equals the spec-level filter. -/
theorem shapeLoop_eq_spec (vs : List TraceValue) : shapeLoop vs = tensorShapesSpec vs := by
  suffices h : ∀ acc,
      vs.foldl
        (fun acc v =>
          if v.ty.kind == "TensorType" then
            if v.ty.sizes.isEmpty then acc else acc ++ [v.ty.sizes]
          else acc)
        acc = acc ++ tensorShapesSpec vs by
    simpa [shapeLoop] using h []
  induction vs with
  | nil => intro acc; simp [tensorShapesSpec]
  | cons v vs ih =>
    intro acc
    rw [List.foldl_cons, ih]
    by_cases hk : v.ty.kind = "TensorType"
    · by_cases hs : v.ty.sizes = []
      · simp [tensorShapesSpec, List.filterMap_cons, hk, hs, List.isEmpty_iff]
      · simp [tensorShapesSpec, List.filterMap_cons, hk, hs, List.isEmpty_iff]
    · simp [tensorShapesSpec, List.filterMap_cons, hk]

/-- Resolving one extra segment applies one more `scope_step`. -/
theorem get_full_name_append (m : Model) (sn : List String) (seg pfx : String) :
    get_full_name_by_scope_name m (sn ++ [seg]) pfx =
      scope_step m (get_full_name_by_scope_name m sn pfx) seg := by
  simp [get_full_name_by_scope_name, List.foldl_append]

/-- Every member of the spec-level tensor-shape filter is non-empty. -/
theorem mem_tensorShapesSpec_ne_nil (vs : List TraceValue) (s : List Int)
    (hs : s ∈ tensorShapesSpec vs) : s ≠ [] := by
  rw [tensorShapesSpec, List.mem_filterMap] at hs
  obtain ⟨v, hv, hvs⟩ := hs
  by_cases h : v.ty.kind = "TensorType" ∧ v.ty.sizes ≠ []
  · rw [if_pos h] at hvs
    cases hvs
    exact h.2
  · rw [if_neg h] at hvs
    simp at hvs

/-- Claim C9: `build_full_name(prefix, name)` returns `"{prefix}__{name}"`,
`build_full_name(prefix, name, seq)` returns `"{prefix}__{name}{str(seq)}"`
with no separator before `seq`, and a list name is first joined with the
two-underscore separator, e.g. `build_full_name('a', ['x','y']) = "a__x__y"`. -/
theorem C9_build_full_name_format (pfx name : String) (l : List String) (q : Int) :
    build_full_name pfx (NameArg.str name) = pfx ++ "__" ++ name ∧
    build_full_name pfx (NameArg.str name) (some q) = pfx ++ "__" ++ name ++ toString q ∧
    build_full_name pfx (NameArg.list l) = pfx ++ "__" ++ String.intercalate "__" l ∧
    build_full_name "a" (NameArg.list ["x", "y"]) = "a__x__y" :=
  ⟨rfl, rfl, rfl, by decide⟩

/-- Claim C8: `is_layerchoice_node` returns true iff the node is present, its
operation is the `Cell` variant, and the parameters map `'mutation'` to
`'layerchoice'`; it returns false for every other combination (absent node,
non-Cell operation, missing key, or other mutation kind). -/
theorem C8_is_layerchoice_node_iff (n : Option Node) :
    is_layerchoice_node n = true ↔
      ∃ nd, n = some nd ∧ nd.operation.variant = OpVariant.cell ∧
        nd.operation.parameters.lookup "mutation" = some "layerchoice" := by
  cases n with
  | none => simp [is_layerchoice_node]
  | some nd => simp [is_layerchoice_node]

/-- Claim C10: `get_full_name_by_scope_name` on an empty scope-name sequence
returns the prefix unchanged, for every model and prefix. -/
theorem C10_empty_scope_identity (m : Model) (pfx : String) :
    get_full_name_by_scope_name m [] pfx = pfx := rfl

/-- Claim C4: when no intermediate full name looked up during resolution names
a layer-choice node, `get_full_name_by_scope_name` equals the iterated
application of plain `build_full_name` over the segments. -/
theorem C4_refines_iter_build_full_name (m : Model) (scope_names : List String)
    (pfx : String) (h : no_layerchoice_on_path m scope_names pfx = true) :
    get_full_name_by_scope_name m scope_names pfx = iter_build_full_name scope_names pfx := by
  induction scope_names generalizing pfx with
  | nil => rfl
  | cons s rest ih =>
    simp only [no_layerchoice_on_path, Bool.and_eq_true, Bool.not_eq_true'] at h
    obtain ⟨h1, h2⟩ := h
    have hstep : scope_step m pfx s = build_full_name pfx (NameArg.str s) := by
      simp [scope_step, h1]
    show get_full_name_by_scope_name m rest (scope_step m pfx s) =
      iter_build_full_name rest (build_full_name pfx (NameArg.str s))
    rw [hstep]
    exact ih _ h2

/-- Claim C4 witness: a concrete model and path with no layer-choice node on
the way. -/
theorem C4_witness :
    no_layerchoice_on_path emptyModel ["a", "b"] "root" = true ∧
    get_full_name_by_scope_name emptyModel ["a", "b"] "root" =
      iter_build_full_name ["a", "b"] "root" :=
  ⟨by decide, C4_refines_iter_build_full_name emptyModel ["a", "b"] "root" (by decide)⟩

/-- Claim C5: when the node looked up under the accumulated full name is a
layer-choice node with label `L`, the full name after the next segment is
`"layerchoice_{L}_{segment}"`; the previously accumulated prefix is discarded,
not prepended (the right-hand side does not mention it). -/
theorem C5_layerchoice_discards_prior (m : Model) (sn : List String)
    (seg pfx L : String) (nd : Node)
    (h1 : m.get_node_by_name (get_full_name_by_scope_name m sn pfx) = some nd)
    (h2 : is_layerchoice_node (some nd) = true)
    (h3 : nd.operation.parameters.lookup "label" = some L) :
    get_full_name_by_scope_name m (sn ++ [seg]) pfx = "layerchoice_" ++ L ++ "_" ++ seg := by
  rw [get_full_name_append]
  simp [scope_step, h1, h2, getLabel, h3]

/-- Claim C5 witness: a concrete model whose node `"p__a"` is a layer-choice
node with label `"lab"`. -/
theorem C5_witness :
    get_full_name_by_scope_name lcModel (["a"] ++ ["b"]) "p" = "layerchoice_lab_b" :=
  C5_layerchoice_discards_prior lcModel ["a"] "b" "p" "lab" lcNode
    (by decide) (by decide) (by decide)

/-- Claim C2: when the resolved full name names a sub-graph, `match_node`
returns the first node of that sub-graph, in node order, whose kind equals the
trace record's kind and whose `input_shape` attribute is empty, and `none` when
no such node exists — so an unshaped same-kind node is preferred over any
shaped same-kind node. -/
theorem C2_subgraph_first_unshaped (m : Model) (tn : TorchNode) (pfx : String)
    (g : Graph)
    (hg : m.graphsGet
        (get_full_name_by_scope_name m (scope_names_of tn.scopeName) pfx) = some g) :
    match_node m tn pfx =
      g.nodes.find?
        (fun n => n.operation.type == tn.kind &&
          n.operation.attributes.input_shape.isEmpty) := by
  simp only [match_node, hg]
  rw [Graph.get_nodes_by_type, find_in_filter]

/-- Claim C2 witness: the spec's scenario — the sub-graph `"net"` holds a
shaped relu node before an unshaped one, and the unshaped one is returned. -/
theorem C2_witness : match_node netModel reluTN "net" = some n1 :=
  (C2_subgraph_first_unshaped netModel reluTN "net" ⟨[n2, n1]⟩ (by decide)).trans (by decide)

/-- Claim C1 counterexample: the no-sub-graph branch returns the node matched
by name alone, with no kind check — here the trace record has kind
`"aten::relu"` while the returned node's kind is `"Conv2d"`. -/
theorem C1_counterexample :
    match_node cModel cTN "" = some cNode ∧ cNode.operation.type ≠ cTN.kind :=
  ⟨by decide, by decide⟩

/-- Claim C1 (amended): in the sub-graph branch the returned node's kind
always equals the trace record's kind; the no-sub-graph branch carries no such
guarantee (see the counterexample). -/
theorem C1_subgraph_branch_kind (m : Model) (tn : TorchNode) (pfx : String)
    (g : Graph) (nd : Node)
    (hg : m.graphsGet
        (get_full_name_by_scope_name m (scope_names_of tn.scopeName) pfx) = some g)
    (hr : match_node m tn pfx = some nd) :
    nd.operation.type = tn.kind := by
  simp only [match_node, hg] at hr
  have hmem := List.mem_of_find?_eq_some hr
  rw [Graph.get_nodes_by_type, List.mem_filter] at hmem
  exact eq_of_beq hmem.2

/-- Claim C1 witness: in the sub-graph scenario the matched node's kind equals
the trace record's kind. -/
theorem C1_witness : n1.operation.type = reluTN.kind :=
  C1_subgraph_branch_kind netModel reluTN "net" ⟨[n2, n1]⟩ n1 (by decide) (by decide)

/-- Claim C6: a scope path with no `/` and no `.` delimiter (so both splits
return the whole string as a single segment) yields an empty scope-name
sequence, and `match_node` silently returns an absent match when nothing
resolves under the derived name (the prefix). -/
theorem C6_no_delimiters_absent (m : Model) (tn : TorchNode) (pfx : String)
    (h1 : pySplit '/' tn.scopeName = [tn.scopeName])
    (h2 : pySplit '.' tn.scopeName = [tn.scopeName])
    (h3 : m.graphsGet pfx = none)
    (h4 : m.get_node_by_name pfx = none) :
    scope_names_of tn.scopeName = [] ∧ match_node m tn pfx = none := by
  have hlast : ([tn.scopeName].getLastD "") = tn.scopeName := rfl
  have hs : scope_names_of tn.scopeName = [] := by
    unfold scope_names_of
    rw [h1, hlast, h2]
    rfl
  refine ⟨hs, ?_⟩
  simp only [match_node, hs]
  have hfull : get_full_name_by_scope_name m [] pfx = pfx := rfl
  rw [hfull, h3]
  exact h4

/-- Claim C6 witness: scope path `"Netfoo"` with no delimiter, and a model
resolving nothing under the prefix `"zzz"`. -/
theorem C6_witness :
    scope_names_of mTN.scopeName = [] ∧ match_node cModel mTN "zzz" = none :=
  C6_no_delimiters_absent cModel mTN "zzz" (by decide) (by decide) (by decide) (by decide)

/-- Claim C3: on a concatenation record the extractor takes the input shapes
from the sizes of every input of the first direct input's producing node (not
from the direct inputs) and returns the second direct input's constant value
as the `dim` extra parameter; on every other kind the extra parameter is
absent. -/
theorem C3_cat_extraction (tn : TraceNode) :
    (∀ i0 i1 : TraceValue, ∀ rest : List TraceValue,
      tn.inputs = i0 :: i1 :: rest → tn.kind = "aten::cat" →
      _extract_info_from_trace_node tn =
        some (⟨i0.producerInputTypes.map (fun t => t.sizes), shapeLoop tn.outputs⟩,
          some i1.ivalue)) ∧
    (tn.kind ≠ "aten::cat" →
      (_extract_info_from_trace_node tn).map Prod.snd = some none) := by
  constructor
  · intro i0 i1 rest hin hk
    simp [_extract_info_from_trace_node, hin, hk]
  · intro hk
    simp [_extract_info_from_trace_node, hk]

/-- Claim C3 witness: the spec's scenario — producing node with inputs of
shapes `[1,3]` and `[1,4]`, axis constant `1` — and a single-input relu record
with absent extra parameters. -/
theorem C3_witness :
    _extract_info_from_trace_node catTN = some (⟨[[1, 3], [1, 4]], [[1, 7]]⟩, some 1) ∧
    (_extract_info_from_trace_node ncTN).map Prod.snd = some none :=
  ⟨((C3_cat_extraction catTN).1 catV0 catV1 [] (by decide) (by decide)).trans (by decide),
   (C3_cat_extraction ncTN).2 (by decide)⟩

/-- Claim C7: on a non-concatenation record the extractor records a direct
input's shape exactly when its type is a tensor type with a non-empty shape,
applies the same filter to the outputs, and never records an empty entry. -/
theorem C7_noncat_tensor_filter (tn : TraceNode) (hk : tn.kind ≠ "aten::cat") :
    _extract_info_from_trace_node tn =
      some (⟨tensorShapesSpec tn.inputs, tensorShapesSpec tn.outputs⟩, none) ∧
    (∀ s ∈ tensorShapesSpec tn.inputs, s ≠ []) ∧
    (∀ s ∈ tensorShapesSpec tn.outputs, s ≠ []) := by
  refine ⟨?_, ?_, ?_⟩
  · simp [_extract_info_from_trace_node, hk, shapeLoop_eq_spec]
  · exact fun s hs => mem_tensorShapesSpec_ne_nil tn.inputs s hs
  · exact fun s hs => mem_tensorShapesSpec_ne_nil tn.outputs s hs

/-- Claim C7 witness: a relu record with a shaped tensor input, a non-tensor
input and an empty-shaped tensor input — only the shaped tensor survives. -/
theorem C7_witness :
    _extract_info_from_trace_node ncTN = some (⟨[[2, 3]], [[2, 3]]⟩, none) :=
  ((C7_noncat_tensor_filter ncTN (by decide)).1).trans (by decide)

end NNI
